import Mathlib

/-!
Verification of the ACME order/authorization/challenge API handlers
(src/acme/api/order.go) by a shallow embedding in Lean.

Modelling conventions:
- Go strings are Lean Strings; the identifier-type, challenge-type, status
  and error-type constants of the acme package are modelled as String
  constants (only their distinctness matters here).
- Go time.Time is modelled as Int (a point on an abstract clock, in
  seconds), with the Go zero value time.Time{} modelled as 0 and IsZero as
  an equality test with 0. time.Duration is Int in the same unit, so
  time.Hour*24 is 86400 and time.Minute is 60.
- External collaborators are parameters: net.ParseIP is a parameter
  parseIP, the base64url decoder, DER parser and signature check of
  crypto/x509 form a CryptoEnv of parameters, the status recomputation
  acme.Order.UpdateStatus and acme.Order.Finalize (which live outside the
  embedded file) are function parameters, and the entropy source behind
  randutil is a stream of naturals.
- The database collaborator is explicit state: a DB record plus a trace of
  the database events a handler performed. The create operations assign
  fresh identifiers from a counter, as the external store does.
- Each HTTP handler becomes a function from its request-scoped inputs
  (account, provisioner, decoded payload, URL parameter) and the current
  DB to a HandlerOut: the rendered result (order body or ACME error), the
  final DB, and the event trace.
-/

set_option autoImplicit false

namespace AcmeOrder

/-- Abstract clock instants, in seconds; 0 models the Go zero time.Time. -/
abbrev Time := Int

/-- Durations, in the same unit as Time. -/
abbrev Duration := Int

/-- Constant acme.DNS of the acme package. -/
def DNS : String := "dns"

/-- Constant acme.IP of the acme package. -/
def IP : String := "ip"

/-- Constant acme.HTTP01 of the acme package. -/
def HTTP01 : String := "http-01"

/-- Constant acme.DNS01 of the acme package. -/
def DNS01 : String := "dns-01"

/-- Constant acme.TLSALPN01 of the acme package. -/
def TLSALPN01 : String := "tls-alpn-01"

/-- Constant acme.StatusPending of the acme package. -/
def StatusPending : String := "pending"

/-- Constant acme.ErrorMalformedType of the acme package. -/
def ErrorMalformedType : String := "malformed"

/-- Constant acme.ErrorUnauthorizedType of the acme package. -/
def ErrorUnauthorizedType : String := "unauthorized"

/-- Constant acme.ErrorServerInternalType, the kind produced by
WrapErrorISE. -/
def ErrorServerInternalType : String := "serverInternal"

/-- An ACME problem document as produced by acme.NewError and
acme.WrapError: an error kind plus a human-readable detail. -/
structure AcmeError where
  type : String
  detail : String
  deriving Repr, DecidableEq

/-- acme.Identifier. -/
structure Identifier where
  type : String
  value : String
  deriving Repr, DecidableEq

/-- acme.Challenge, with the fields the embedded handlers touch. -/
structure Challenge where
  id : String
  accountID : String
  value : String
  type : String
  token : String
  status : String
  deriving Repr, DecidableEq

/-- acme.Authorization, with the fields the embedded handlers touch. -/
structure Authorization where
  id : String
  accountID : String
  identifier : Identifier
  wildcard : Bool
  status : String
  token : String
  challenges : List Challenge
  expiresAt : Time
  deriving Repr, DecidableEq

/-- acme.Order, with the fields the embedded handlers touch. -/
structure Order where
  id : String
  accountID : String
  provisionerID : String
  status : String
  identifiers : List Identifier
  authorizationIDs : List String
  notBefore : Time
  notAfter : Time
  expiresAt : Time
  deriving Repr, DecidableEq

/-- The authenticated account taken from the request context. -/
structure Account where
  id : String
  deriving Repr, DecidableEq

/-- The authenticated provisioner taken from the request context; id is
what GetID returns and defaultTLSCertDuration what
DefaultTLSCertDuration returns. -/
structure Provisioner where
  id : String
  defaultTLSCertDuration : Duration
  deriving Repr, DecidableEq

/-- The state of the storage collaborator: every persisted order,
authorization and challenge, plus the counter the store draws fresh
record identifiers from. -/
structure DB where
  orders : List Order
  authorizations : List Authorization
  challenges : List Challenge
  nextID : Nat
  deriving Repr, DecidableEq

/-- One database interaction of a handler, recorded in order. -/
inductive DBEvent where
  | getOrder (ordID : String)
  | createOrder (id : String)
  | createAuthorization (id : String)
  | createChallenge (id : String)
  | updateStatus (ordID : String)
  | finalize (ordID : String)
  deriving Repr, DecidableEq

/-- The state a handler threads while talking to the store: the store
itself, the event trace so far, and the position in the entropy stream
(randutil consumes entropy left to right). -/
structure HState where
  db : DB
  trace : List DBEvent
  rand : Nat
  deriving Repr

instance {ε α : Type} [DecidableEq ε] [DecidableEq α] :
    DecidableEq (Except ε α) := fun x y =>
  match x, y with
  | .ok a, .ok b =>
    if h : a = b then isTrue (by rw [h])
    else isFalse (by intro hc; cases hc; exact h rfl)
  | .ok _, .error _ => isFalse (by intro hc; cases hc)
  | .error _, .ok _ => isFalse (by intro hc; cases hc)
  | .error e, .error f =>
    if h : e = f then isTrue (by rw [h])
    else isFalse (by intro hc; cases hc; exact h rfl)

/-- What a handler renders back plus the final store state: the body
written by render.JSON on success or the error written by render.Error,
the final DB, and the trace of database events. -/
structure HandlerOut where
  result : Except AcmeError Order
  db : DB
  trace : List DBEvent
  deriving Repr, DecidableEq

/-- Fresh record identifier drawn by the store from its counter. -/
def freshID (db : DB) : String := "id-" ++ toString db.nextID

/-- db.GetOrder: look the order up by its id. -/
def dbGetOrder (db : DB) (ordID : String) : Option Order :=
  db.orders.find? (fun o => o.id == ordID)

/-- db.CreateOrder: assign a fresh id and persist the order. -/
def createOrder (o : Order) (st : HState) : Order × HState :=
  let o' := { o with id := freshID st.db }
  (o', { st with
          db := { st.db with orders := st.db.orders ++ [o'],
                             nextID := st.db.nextID + 1 },
          trace := st.trace ++ [DBEvent.createOrder o'.id] })

/-- db.CreateAuthorization: assign a fresh id and persist the
authorization. -/
def createAuthorization (az : Authorization) (st : HState) :
    Authorization × HState :=
  let az' := { az with id := freshID st.db }
  (az', { st with
           db := { st.db with authorizations := st.db.authorizations ++ [az'],
                              nextID := st.db.nextID + 1 },
           trace := st.trace ++ [DBEvent.createAuthorization az'.id] })

/-- db.CreateChallenge: assign a fresh id and persist the challenge. -/
def createChallenge (ch : Challenge) (st : HState) : Challenge × HState :=
  let ch' := { ch with id := freshID st.db }
  (ch', { st with
           db := { st.db with challenges := st.db.challenges ++ [ch'],
                              nextID := st.db.nextID + 1 },
           trace := st.trace ++ [DBEvent.createChallenge ch'.id] })

/-- Variable defaultOrderExpiry = time.Hour * 24, in seconds. -/
def defaultOrderExpiry : Duration := 24 * 60 * 60

/-- Variable defaultOrderBackdate = time.Minute, in seconds. -/
def defaultOrderBackdate : Duration := 60

/-- NewOrderRequest: the decoded body of a new-order request. A zero
notBefore or notAfter models a field the caller omitted. -/
structure NewOrderRequest where
  identifiers : List Identifier
  notBefore : Time
  notAfter : Time
  deriving Repr, DecidableEq

/-- The identifier loop of NewOrderRequest.Validate: the first offending
identifier determines the error, later ones are not reached. -/
def validateIdentifiers (parseIP : String → Bool) :
    List Identifier → Option AcmeError
  | [] => none
  | id :: rest =>
    if ¬(id.type = DNS ∨ id.type = IP) then
      some ⟨ErrorMalformedType, "identifier type unsupported: " ++ id.type⟩
    else if id.type = IP ∧ parseIP id.value = false then
      some ⟨ErrorMalformedType, "invalid IP address: " ++ id.value⟩
    else
      validateIdentifiers parseIP rest

/-- NewOrderRequest.Validate, with net.ParseIP abstracted into the
parameter parseIP (true means the value parses as an IP literal). -/
def NewOrderRequest.Validate (parseIP : String → Bool)
    (n : NewOrderRequest) : Option AcmeError :=
  if n.identifiers.length = 0 then
    some ⟨ErrorMalformedType, "identifiers list cannot be empty"⟩
  else
    validateIdentifiers parseIP n.identifiers

/-- challengeTypes: the types of challenges that should be used for the
ACME authorization request, from the identifier type and wildcard flag. -/
def challengeTypes (az : Authorization) : List String :=
  if az.identifier.type = IP then
    [HTTP01, TLSALPN01]
  else if az.identifier.type = DNS then
    let base := [DNS01]
    if ¬az.wildcard then base ++ [HTTP01, TLSALPN01] else base
  else
    []

/-- The alphabet used by randutil.Alphanumeric (digits plus lower and
upper case letters). -/
def alphanumerics : String :=
  "0123456789abcdefghijklmnopqrstuvwxyzABCDEFGHIJKLMNOPQRSTUVWXYZ"

/-- One character drawn from the alphanumeric alphabet by the entropy
value n, as randutil maps random bytes into its alphabet. -/
def alphanumericChar (n : Nat) : Char :=
  alphanumerics.toList.getD (n % alphanumerics.toList.length) 'a'

/-- randutil.Alphanumeric 32: a 32-character string whose characters are
drawn from the alphanumeric alphabet by the entropy stream, starting at
stream position pos. -/
def alphanumeric32 (entropy : Nat → Nat) (pos : Nat) : String :=
  String.mk ((List.range 32).map (fun i => alphanumericChar (entropy (pos + i))))

/-- The challenge-creation loop of newAuthorization: for each challenge
type construct a pending challenge carrying the shared token and the
authorization identifier value, and persist it. -/
def createChallenges (accountID value token : String) :
    List String → HState → List Challenge × HState
  | [], st => ([], st)
  | typ :: rest, st =>
    let p := createChallenge
      { id := "", accountID := accountID, value := value, type := typ,
        token := token, status := StatusPending } st
    let q := createChallenges accountID value token rest p.2
    (p.1 :: q.1, q.2)

/-- The wildcard block at the top of newAuthorization: a value with the
leading wildcard marker sets the wildcard flag and is replaced by the
value with the marker stripped (strings.TrimPrefix of a present leading
pattern drops its two characters). -/
def normalizeWildcard (az : Authorization) : Authorization :=
  if az.identifier.value.startsWith "*." then
    { az with
       wildcard := true,
       identifier := { value := az.identifier.value.drop 2,
                       type := az.identifier.type } }
  else az

/-- newAuthorization: normalize the wildcard marker, compute the challenge
types, draw the shared token from the entropy stream, create the
challenges and then the authorization itself. Returns the stored
authorization (with its id assigned by the store). -/
def newAuthorization (entropy : Nat → Nat) (az : Authorization)
    (st : HState) : Authorization × HState :=
  let az1 := normalizeWildcard az
  let chTypes := challengeTypes az1
  let token := alphanumeric32 entropy st.rand
  let st1 : HState := { st with rand := st.rand + 32 }
  let az2 := { az1 with token := token }
  let p := createChallenges az2.accountID az2.identifier.value token chTypes st1
  let az3 := { az2 with challenges := p.1 }
  createAuthorization az3 p.2

/-- The authorization loop of NewOrder: for each identifier construct a
pending authorization with the order expiry and run newAuthorization,
collecting the stored authorization ids in identifier order. -/
def createAuthorizations (entropy : Nat → Nat) (accountID : String)
    (expiresAt : Time) : List Identifier → HState → List String × HState
  | [], st => ([], st)
  | identifier :: rest, st =>
    let az : Authorization :=
      { id := "", accountID := accountID, identifier := identifier,
        wildcard := false, status := StatusPending, token := "",
        challenges := [], expiresAt := expiresAt }
    let p := newAuthorization entropy az st
    let q := createAuthorizations entropy accountID expiresAt rest p.2
    (p.1.id :: q.1, q.2)

/-- The authorization fan-out of NewOrder, run over a fresh handler state
on the current store, with the order expiry now + defaultOrderExpiry. -/
def newOrderAuths (entropy : Nat → Nat) (acc : Account) (now : Time)
    (nor : NewOrderRequest) (db : DB) : List String × HState :=
  createAuthorizations entropy acc.id (now + defaultOrderExpiry)
    nor.identifiers ⟨db, [], 0⟩

/-- The notBefore written by NewOrder: the caller value, or now when the
caller omitted it; then, exactly when the caller omitted it, backdated by
defaultOrderBackdate. -/
def newOrderNotBefore (now : Time) (nor : NewOrderRequest) : Time :=
  let notBefore1 := if nor.notBefore = 0 then now else nor.notBefore
  if nor.notBefore = 0 then notBefore1 - defaultOrderBackdate else notBefore1

/-- The notAfter written by NewOrder: the caller value, or, when the
caller omitted it, the pre-backdate notBefore plus the provisioner
default duration. -/
def newOrderNotAfter (now : Time) (prov : Provisioner)
    (nor : NewOrderRequest) : Time :=
  let notBefore1 := if nor.notBefore = 0 then now else nor.notBefore
  if nor.notAfter = 0 then notBefore1 + prov.defaultTLSCertDuration
  else nor.notAfter

/-- The order record NewOrder hands to db.CreateOrder (its id still
unassigned). -/
def newOrderRecord (entropy : Nat → Nat) (now : Time) (acc : Account)
    (prov : Provisioner) (nor : NewOrderRequest) (db : DB) : Order :=
  { id := "", accountID := acc.id, provisionerID := prov.id,
    status := StatusPending, identifiers := nor.identifiers,
    authorizationIDs := (newOrderAuths entropy acc now nor db).1,
    notBefore := newOrderNotBefore now nor,
    notAfter := newOrderNotAfter now prov nor,
    expiresAt := now + defaultOrderExpiry }

/-- NewOrder handler: validate the request, build the pending order with
its 24h expiry, fan out one authorization per identifier, resolve the
notBefore and notAfter defaults (backdating notBefore when the caller
omitted it), and persist the order. -/
def NewOrder (parseIP : String → Bool) (entropy : Nat → Nat) (now : Time)
    (acc : Account) (prov : Provisioner) (nor : NewOrderRequest)
    (db : DB) : HandlerOut :=
  match NewOrderRequest.Validate parseIP nor with
  | some e => ⟨Except.error e, db, []⟩
  | none =>
    let p := newOrderAuths entropy acc now nor db
    let o := newOrderRecord entropy now acc prov nor db
    let q := createOrder o p.2
    ⟨Except.ok q.1, q.2.db, q.2.trace⟩

/-- GetOrder handler. The status recomputation acme.Order.UpdateStatus
lives outside the embedded file and is a parameter: it may rewrite the
order and the store, or fail. -/
def GetOrder (updateStatus : DB → Order → Except String (Order × DB))
    (acc : Account) (prov : Provisioner) (ordID : String) (db : DB) :
    HandlerOut :=
  match dbGetOrder db ordID with
  | none =>
    ⟨Except.error ⟨ErrorServerInternalType, "error retrieving order"⟩,
      db, [DBEvent.getOrder ordID]⟩
  | some o =>
    if acc.id ≠ o.accountID then
      ⟨Except.error ⟨ErrorUnauthorizedType,
          "account " ++ acc.id ++ " does not own order " ++ o.id⟩,
        db, [DBEvent.getOrder ordID]⟩
    else if prov.id ≠ o.provisionerID then
      ⟨Except.error ⟨ErrorUnauthorizedType,
          "provisioner " ++ prov.id ++ " does not own order " ++ o.id⟩,
        db, [DBEvent.getOrder ordID]⟩
    else
      match updateStatus db o with
      | Except.error _ =>
        ⟨Except.error ⟨ErrorServerInternalType, "error updating order status"⟩,
          db, [DBEvent.getOrder ordID, DBEvent.updateStatus o.id]⟩
      | Except.ok (o', db') =>
        ⟨Except.ok o', db', [DBEvent.getOrder ordID, DBEvent.updateStatus o.id]⟩

/-- A parsed certificate request (crypto/x509), abstract but for its raw
bytes. -/
structure CertificateRequest where
  raw : List Nat
  deriving Repr, DecidableEq

/-- The external decoding and cryptography FinalizeRequest.Validate
leans on: base64.RawURLEncoding.DecodeString,
x509.ParseCertificateRequest and CheckSignature, each able to fail. -/
structure CryptoEnv where
  decodeBase64URL : String → Except String (List Nat)
  parseCertificateRequest : List Nat → Except String CertificateRequest
  checkSignature : CertificateRequest → Except String Unit

/-- FinalizeRequest: the decoded body of a finalize request, carrying the
base64url encoded CSR. -/
structure FinalizeRequest where
  csr : String
  deriving Repr, DecidableEq

/-- FinalizeRequest.Validate: base64url decode the CSR, DER-parse it, and
check its self-signature; each failure is a malformed error. Returns the
parsed CSR on success. -/
def FinalizeRequest.Validate (env : CryptoEnv) (f : FinalizeRequest) :
    Except AcmeError CertificateRequest :=
  match env.decodeBase64URL f.csr with
  | Except.error _ =>
    Except.error ⟨ErrorMalformedType, "error base64url decoding csr"⟩
  | Except.ok csrBytes =>
    match env.parseCertificateRequest csrBytes with
    | Except.error _ =>
      Except.error ⟨ErrorMalformedType, "unable to parse csr"⟩
    | Except.ok csr =>
      match env.checkSignature csr with
      | Except.error _ =>
        Except.error ⟨ErrorMalformedType, "csr failed signature check"⟩
      | Except.ok _ => Except.ok csr

/-- FinalizeOrder handler. The issuance step acme.Order.Finalize lives
outside the embedded file and is a parameter: it may rewrite the order
and the store, or fail. -/
def FinalizeOrder (env : CryptoEnv)
    (finalize : DB → Order → CertificateRequest → Except String (Order × DB))
    (acc : Account) (prov : Provisioner) (ordID : String)
    (fr : FinalizeRequest) (db : DB) : HandlerOut :=
  match FinalizeRequest.Validate env fr with
  | Except.error e => ⟨Except.error e, db, []⟩
  | Except.ok csr =>
    match dbGetOrder db ordID with
    | none =>
      ⟨Except.error ⟨ErrorServerInternalType, "error retrieving order"⟩,
        db, [DBEvent.getOrder ordID]⟩
    | some o =>
      if acc.id ≠ o.accountID then
        ⟨Except.error ⟨ErrorUnauthorizedType,
            "account " ++ acc.id ++ " does not own order " ++ o.id⟩,
          db, [DBEvent.getOrder ordID]⟩
      else if prov.id ≠ o.provisionerID then
        ⟨Except.error ⟨ErrorUnauthorizedType,
            "provisioner " ++ prov.id ++ " does not own order " ++ o.id⟩,
          db, [DBEvent.getOrder ordID]⟩
      else
        match finalize db o csr with
        | Except.error _ =>
          ⟨Except.error ⟨ErrorServerInternalType, "error finalizing order"⟩,
            db, [DBEvent.getOrder ordID, DBEvent.finalize o.id]⟩
        | Except.ok (o', db') =>
          ⟨Except.ok o', db',
            [DBEvent.getOrder ordID, DBEvent.finalize o.id]⟩

/-! Validation lemmas. -/

/-- An identifier the validator accepts: the type is DNS or IP, and an IP
value parses. -/
def identifierOK (parseIP : String → Bool) (id : Identifier) : Prop :=
  (id.type = DNS ∨ id.type = IP) ∧ (id.type = IP → parseIP id.value = true)

theorem validateIdentifiers_eq_none_iff (parseIP : String → Bool)
    (ids : List Identifier) :
    validateIdentifiers parseIP ids = none ↔
      ∀ id ∈ ids, identifierOK parseIP id := by
  induction ids with
  | nil => simp [validateIdentifiers]
  | cons id rest ih =>
    unfold validateIdentifiers
    by_cases h1 : id.type = DNS ∨ id.type = IP
    · rw [if_neg (not_not_intro h1)]
      by_cases h2 : id.type = IP ∧ parseIP id.value = false
      · rw [if_pos h2]
        simp only [List.mem_cons]
        constructor
        · intro h; cases h
        · intro h
          have := (h id (Or.inl rfl)).2 h2.1
          rw [this] at h2
          cases h2.2
      · rw [if_neg h2, ih]
        simp only [List.mem_cons]
        constructor
        · intro h
          intro x hx
          cases hx with
          | inl hx =>
            subst hx
            refine ⟨h1, fun hip => ?_⟩
            by_contra hfalse
            exact h2 ⟨hip, by simpa using hfalse⟩
          | inr hx => exact h x hx
        · intro h x hx
          exact h x (Or.inr hx)
    · rw [if_pos h1]
      simp only [List.mem_cons]
      constructor
      · intro h; cases h
      · intro h
        exact absurd (h id (Or.inl rfl)).1 h1

theorem validateIdentifiers_some (parseIP : String → Bool)
    (ids : List Identifier) (e : AcmeError)
    (h : validateIdentifiers parseIP ids = some e) :
    e.type = ErrorMalformedType ∧
      ((∃ id ∈ ids, ¬(id.type = DNS ∨ id.type = IP) ∧
          e.detail = "identifier type unsupported: " ++ id.type) ∨
       (∃ id ∈ ids, id.type = IP ∧ parseIP id.value = false ∧
          e.detail = "invalid IP address: " ++ id.value)) := by
  induction ids with
  | nil => simp [validateIdentifiers] at h
  | cons id rest ih =>
    unfold validateIdentifiers at h
    by_cases h1 : id.type = DNS ∨ id.type = IP
    · rw [if_neg (not_not_intro h1)] at h
      by_cases h2 : id.type = IP ∧ parseIP id.value = false
      · rw [if_pos h2] at h
        cases h
        exact ⟨rfl, Or.inr ⟨id, List.mem_cons_self _ _, h2.1, h2.2, rfl⟩⟩
      · rw [if_neg h2] at h
        obtain ⟨ht, hd⟩ := ih h
        refine ⟨ht, ?_⟩
        cases hd with
        | inl hd =>
          obtain ⟨x, hx, hprop⟩ := hd
          exact Or.inl ⟨x, List.mem_cons_of_mem _ hx, hprop⟩
        | inr hd =>
          obtain ⟨x, hx, hprop⟩ := hd
          exact Or.inr ⟨x, List.mem_cons_of_mem _ hx, hprop⟩
    · rw [if_pos h1] at h
      cases h
      exact ⟨rfl, Or.inl ⟨id, List.mem_cons_self _ _, h1, rfl⟩⟩

theorem Validate_eq_none_iff (parseIP : String → Bool)
    (n : NewOrderRequest) :
    NewOrderRequest.Validate parseIP n = none ↔
      n.identifiers ≠ [] ∧ ∀ id ∈ n.identifiers, identifierOK parseIP id := by
  unfold NewOrderRequest.Validate
  by_cases h : n.identifiers.length = 0
  · rw [if_pos h]
    simp [List.length_eq_zero.mp h]
  · rw [if_neg h, validateIdentifiers_eq_none_iff]
    have : n.identifiers ≠ [] := fun hc => h (by simp [hc])
    simp [this]

theorem Validate_some_shape (parseIP : String → Bool)
    (n : NewOrderRequest) (e : AcmeError)
    (h : NewOrderRequest.Validate parseIP n = some e) :
    e.type = ErrorMalformedType ∧
      (e.detail = "identifiers list cannot be empty" ∨
       (∃ id ∈ n.identifiers, ¬(id.type = DNS ∨ id.type = IP) ∧
          e.detail = "identifier type unsupported: " ++ id.type) ∨
       (∃ id ∈ n.identifiers, id.type = IP ∧ parseIP id.value = false ∧
          e.detail = "invalid IP address: " ++ id.value)) := by
  unfold NewOrderRequest.Validate at h
  by_cases hlen : n.identifiers.length = 0
  · rw [if_pos hlen] at h
    cases h
    exact ⟨rfl, Or.inl rfl⟩
  · rw [if_neg hlen] at h
    obtain ⟨ht, hd⟩ := validateIdentifiers_some parseIP n.identifiers e h
    exact ⟨ht, Or.inr hd⟩

/-! Claim theorems: the challenge selector. -/

/-- C3: challengeTypes is a pure function of the identifier type and the
wildcard flag: IP identifiers get exactly HTTP-01 and TLS-ALPN-01,
non-wildcard DNS identifiers exactly DNS-01, HTTP-01 and TLS-ALPN-01,
wildcard DNS identifiers exactly DNS-01, and any other identifier type
the empty list. -/
theorem challengeTypes_pure_cases (az : Authorization) :
    challengeTypes az =
      if az.identifier.type = IP then [HTTP01, TLSALPN01]
      else if az.identifier.type = DNS then
        if az.wildcard then [DNS01] else [DNS01, HTTP01, TLSALPN01]
      else [] := by
  unfold challengeTypes
  by_cases h1 : az.identifier.type = IP
  · rw [if_pos h1, if_pos h1]
  · rw [if_neg h1, if_neg h1]
    by_cases h2 : az.identifier.type = DNS
    · rw [if_pos h2, if_pos h2]
      cases hw : az.wildcard <;> simp [hw]
    · rw [if_neg h2, if_neg h2]

/-! Claim theorems: rejection of invalid new-order requests. -/

/-- C4: a new-order request whose identifier list is empty, contains an
identifier of a type other than DNS or IP, or contains an IP identifier
whose value does not parse, fails validation with a malformed error
(naming the offending value in the IP case), and NewOrder renders that
error with the store untouched and an empty event trace. -/
theorem newOrder_rejects_invalid (parseIP : String → Bool)
    (entropy : Nat → Nat) (now : Time) (acc : Account) (prov : Provisioner)
    (nor : NewOrderRequest) (db : DB)
    (h : nor.identifiers = [] ∨
         ∃ id ∈ nor.identifiers,
           ¬(id.type = DNS ∨ id.type = IP) ∨
           (id.type = IP ∧ parseIP id.value = false)) :
    ∃ e, NewOrderRequest.Validate parseIP nor = some e ∧
      e.type = ErrorMalformedType ∧
      NewOrder parseIP entropy now acc prov nor db = ⟨Except.error e, db, []⟩ ∧
      (e.detail = "identifiers list cannot be empty" ∨
       (∃ id ∈ nor.identifiers,
          e.detail = "identifier type unsupported: " ++ id.type) ∨
       (∃ id ∈ nor.identifiers, id.type = IP ∧ parseIP id.value = false ∧
          e.detail = "invalid IP address: " ++ id.value)) := by
  have hne : NewOrderRequest.Validate parseIP nor ≠ none := by
    intro hnone
    rw [Validate_eq_none_iff] at hnone
    obtain ⟨hnil, hall⟩ := hnone
    cases h with
    | inl h0 => exact hnil h0
    | inr hbad =>
      obtain ⟨id, hmem, hbad⟩ := hbad
      have hok := hall id hmem
      cases hbad with
      | inl hb => exact hb hok.1
      | inr hb =>
        have := hok.2 hb.1
        rw [this] at hb
        cases hb.2
  obtain ⟨e, hsome⟩ := Option.ne_none_iff_exists'.mp hne
  obtain ⟨ht, hd⟩ := Validate_some_shape parseIP nor e hsome
  refine ⟨e, hsome, ht, ?_, ?_⟩
  · unfold NewOrder
    rw [hsome]
  · cases hd with
    | inl h0 => exact Or.inl h0
    | inr hrest =>
      cases hrest with
      | inl hu =>
        obtain ⟨id, hmem, _, hdet⟩ := hu
        exact Or.inr (Or.inl ⟨id, hmem, hdet⟩)
      | inr hip => exact Or.inr (Or.inr hip)

/-- Witness for C4 at a concrete input: a single IP identifier whose
value does not parse. -/
theorem newOrder_rejects_invalid_witness :
    ∃ e, NewOrderRequest.Validate (fun _ => false)
        ⟨[⟨IP, "not-an-ip"⟩], 0, 0⟩ = some e ∧
      e.type = ErrorMalformedType ∧
      NewOrder (fun _ => false) (fun _ => 0) 0 ⟨"acct"⟩ ⟨"prov", 3600⟩
          ⟨[⟨IP, "not-an-ip"⟩], 0, 0⟩ ⟨[], [], [], 0⟩ =
        ⟨Except.error e, ⟨[], [], [], 0⟩, []⟩ ∧
      (e.detail = "identifiers list cannot be empty" ∨
       (∃ id ∈ [(⟨IP, "not-an-ip"⟩ : Identifier)],
          e.detail = "identifier type unsupported: " ++ id.type) ∨
       (∃ id ∈ [(⟨IP, "not-an-ip"⟩ : Identifier)],
          id.type = IP ∧ (fun (_ : String) => false) id.value = false ∧
          e.detail = "invalid IP address: " ++ id.value)) :=
  newOrder_rejects_invalid (fun _ => false) (fun _ => 0) 0 ⟨"acct"⟩
    ⟨"prov", 3600⟩ ⟨[⟨IP, "not-an-ip"⟩], 0, 0⟩ ⟨[], [], [], 0⟩
    (Or.inr ⟨⟨IP, "not-an-ip"⟩, List.mem_cons_self _ _,
      Or.inr ⟨rfl, rfl⟩⟩)

/-! Lemmas on the challenge-creation loop. -/

theorem createChallenges_map_type (a v t : String) (types : List String)
    (st : HState) :
    (createChallenges a v t types st).1.map Challenge.type = types := by
  induction types generalizing st with
  | nil => rfl
  | cons typ rest ih => simp [createChallenges, createChallenge, ih]

theorem createChallenges_fields (a v t : String) (types : List String)
    (st : HState) :
    ∀ ch ∈ (createChallenges a v t types st).1,
      ch.token = t ∧ ch.accountID = a ∧ ch.value = v ∧
      ch.status = StatusPending := by
  induction types generalizing st with
  | nil => intro ch hch; cases hch
  | cons typ rest ih =>
    intro ch hch
    rw [createChallenges] at hch
    simp only [List.mem_cons] at hch
    cases hch with
    | inl hch => subst hch; exact ⟨rfl, rfl, rfl, rfl⟩
    | inr hch => exact ih _ ch hch

theorem createChallenges_orders (a v t : String) (types : List String)
    (st : HState) :
    (createChallenges a v t types st).2.db.orders = st.db.orders := by
  induction types generalizing st with
  | nil => rfl
  | cons typ rest ih => simp [createChallenges, createChallenge, ih]

theorem createChallenges_authorizations (a v t : String)
    (types : List String) (st : HState) :
    (createChallenges a v t types st).2.db.authorizations =
      st.db.authorizations := by
  induction types generalizing st with
  | nil => rfl
  | cons typ rest ih => simp [createChallenges, createChallenge, ih]

theorem createChallenges_rand (a v t : String) (types : List String)
    (st : HState) :
    (createChallenges a v t types st).2.rand = st.rand := by
  induction types generalizing st with
  | nil => rfl
  | cons typ rest ih => simp [createChallenges, createChallenge, ih]

/-! Lemmas on newAuthorization. -/

theorem newAuthorization_wildcard_eq (entropy : Nat → Nat)
    (az : Authorization) (st : HState) :
    (newAuthorization entropy az st).1.wildcard =
      (normalizeWildcard az).wildcard := rfl

theorem newAuthorization_identifier_eq (entropy : Nat → Nat)
    (az : Authorization) (st : HState) :
    (newAuthorization entropy az st).1.identifier =
      (normalizeWildcard az).identifier := rfl

theorem newAuthorization_token_eq (entropy : Nat → Nat)
    (az : Authorization) (st : HState) :
    (newAuthorization entropy az st).1.token =
      alphanumeric32 entropy st.rand := rfl

theorem newAuthorization_accountID_eq (entropy : Nat → Nat)
    (az : Authorization) (st : HState) :
    (newAuthorization entropy az st).1.accountID = az.accountID := by
  unfold newAuthorization normalizeWildcard
  by_cases h : az.identifier.value.startsWith "*." <;> simp [h, createAuthorization]

theorem newAuthorization_expiresAt_eq (entropy : Nat → Nat)
    (az : Authorization) (st : HState) :
    (newAuthorization entropy az st).1.expiresAt = az.expiresAt := by
  unfold newAuthorization normalizeWildcard
  by_cases h : az.identifier.value.startsWith "*." <;> simp [h, createAuthorization]

theorem newAuthorization_status_eq (entropy : Nat → Nat)
    (az : Authorization) (st : HState) :
    (newAuthorization entropy az st).1.status = az.status := by
  unfold newAuthorization normalizeWildcard
  by_cases h : az.identifier.value.startsWith "*." <;> simp [h, createAuthorization]

theorem newAuthorization_challenges_map_type (entropy : Nat → Nat)
    (az : Authorization) (st : HState) :
    (newAuthorization entropy az st).1.challenges.map Challenge.type =
      challengeTypes (normalizeWildcard az) := by
  unfold newAuthorization
  exact createChallenges_map_type _ _ _ _ _

theorem newAuthorization_challenges_token (entropy : Nat → Nat)
    (az : Authorization) (st : HState) :
    ∀ ch ∈ (newAuthorization entropy az st).1.challenges,
      ch.token = (newAuthorization entropy az st).1.token := by
  intro ch hch
  rw [newAuthorization_token_eq]
  unfold newAuthorization at hch
  exact (createChallenges_fields _ _ _ _ _ ch hch).1

theorem newAuthorization_authorizations (entropy : Nat → Nat)
    (az : Authorization) (st : HState) :
    (newAuthorization entropy az st).2.db.authorizations =
      st.db.authorizations ++ [(newAuthorization entropy az st).1] := by
  unfold newAuthorization createAuthorization
  simp [createChallenges_authorizations]

theorem newAuthorization_orders (entropy : Nat → Nat)
    (az : Authorization) (st : HState) :
    (newAuthorization entropy az st).2.db.orders = st.db.orders := by
  unfold newAuthorization createAuthorization
  simp [createChallenges_orders]

theorem newAuthorization_rand (entropy : Nat → Nat)
    (az : Authorization) (st : HState) :
    (newAuthorization entropy az st).2.rand = st.rand + 32 := by
  unfold newAuthorization createAuthorization
  simp [createChallenges_rand]

/-! Lemmas on the token generator. -/

theorem alphanumericChar_isAlphanum (n : Nat) :
    (alphanumericChar n).isAlphanum = true := by
  unfold alphanumericChar
  have hlt : n % alphanumerics.toList.length < alphanumerics.toList.length :=
    Nat.mod_lt _ (by decide)
  have hall : ∀ k, k < alphanumerics.toList.length →
      (alphanumerics.toList.getD k 'a').isAlphanum = true := by decide
  exact hall _ hlt

theorem alphanumeric32_length (entropy : Nat → Nat) (pos : Nat) :
    (alphanumeric32 entropy pos).length = 32 := by
  simp [alphanumeric32, String.length]

theorem alphanumeric32_isAlphanum (entropy : Nat → Nat) (pos : Nat) :
    (alphanumeric32 entropy pos).data.all Char.isAlphanum = true := by
  rw [List.all_eq_true]
  intro c hc
  simp only [alphanumeric32, List.mem_map, List.mem_range] at hc
  obtain ⟨i, _, hi⟩ := hc
  rw [← hi]
  exact alphanumericChar_isAlphanum _

theorem challengeTypes_of_dns_wildcard (az : Authorization)
    (ht : az.identifier.type = DNS) (hw : az.wildcard = true) :
    challengeTypes az = [DNS01] := by
  unfold challengeTypes
  rw [if_neg (by rw [ht]; decide), if_pos ht]
  simp [hw]

/-! Concrete fixtures used by witnesses. -/

/-- An empty store. -/
def db0 : DB := ⟨[], [], [], 0⟩

/-- An initial handler state over the empty store. -/
def st0 : HState := ⟨db0, [], 0⟩

/-- A constant entropy stream. -/
def ent0 : Nat → Nat := fun _ => 0

/-- A fresh wildcard DNS authorization as NewOrder constructs one. -/
def az0 : Authorization :=
  ⟨"", "acct", ⟨DNS, "*.example.com"⟩, false, StatusPending, "", [], 0⟩

/-! Claim theorems: wildcard normalization. -/

/-- C2: for an input authorization with the wildcard flag still clear (as
NewOrder constructs them), newAuthorization stores the authorization it
returns; a value with the leading wildcard marker yields wildcard true,
the value with its first two characters stripped and the type kept, and
for a DNS identifier a challenge set of exactly DNS-01; a value without
the marker keeps wildcard false and the identifier unchanged. -/
theorem newAuthorization_wildcard_normalization (entropy : Nat → Nat)
    (az : Authorization) (st : HState) (hw : az.wildcard = false) :
    ((newAuthorization entropy az st).2.db.authorizations =
       st.db.authorizations ++ [(newAuthorization entropy az st).1]) ∧
    (az.identifier.value.startsWith "*." = true →
       (newAuthorization entropy az st).1.wildcard = true ∧
       (newAuthorization entropy az st).1.identifier.value =
         az.identifier.value.drop 2 ∧
       (newAuthorization entropy az st).1.identifier.type =
         az.identifier.type ∧
       (az.identifier.type = DNS →
         (newAuthorization entropy az st).1.challenges.map Challenge.type =
           [DNS01])) ∧
    (az.identifier.value.startsWith "*." = false →
       (newAuthorization entropy az st).1.wildcard = false ∧
       (newAuthorization entropy az st).1.identifier = az.identifier) := by
  refine ⟨newAuthorization_authorizations entropy az st, ?_, ?_⟩
  · intro hs
    have h1 : (normalizeWildcard az).wildcard = true := by
      simp [normalizeWildcard, hs]
    have h2 : (normalizeWildcard az).identifier.value =
        az.identifier.value.drop 2 := by
      simp [normalizeWildcard, hs]
    have h3 : (normalizeWildcard az).identifier.type =
        az.identifier.type := by
      simp [normalizeWildcard, hs]
    refine ⟨by rw [newAuthorization_wildcard_eq, h1],
            by rw [newAuthorization_identifier_eq, h2],
            by rw [newAuthorization_identifier_eq, h3], ?_⟩
    intro hdns
    rw [newAuthorization_challenges_map_type]
    exact challengeTypes_of_dns_wildcard _ (h3.trans hdns) h1
  · intro hs
    have h0 : normalizeWildcard az = az := by simp [normalizeWildcard, hs]
    exact ⟨by rw [newAuthorization_wildcard_eq, h0, hw],
           by rw [newAuthorization_identifier_eq, h0]⟩

/-- Witness for C2 at a concrete wildcard DNS identifier. -/
theorem newAuthorization_wildcard_normalization_witness :
    ((newAuthorization ent0 az0 st0).2.db.authorizations =
       st0.db.authorizations ++ [(newAuthorization ent0 az0 st0).1]) ∧
    (az0.identifier.value.startsWith "*." = true →
       (newAuthorization ent0 az0 st0).1.wildcard = true ∧
       (newAuthorization ent0 az0 st0).1.identifier.value =
         az0.identifier.value.drop 2 ∧
       (newAuthorization ent0 az0 st0).1.identifier.type =
         az0.identifier.type ∧
       (az0.identifier.type = DNS →
         (newAuthorization ent0 az0 st0).1.challenges.map Challenge.type =
           [DNS01])) ∧
    (az0.identifier.value.startsWith "*." = false →
       (newAuthorization ent0 az0 st0).1.wildcard = false ∧
       (newAuthorization ent0 az0 st0).1.identifier = az0.identifier) :=
  newAuthorization_wildcard_normalization ent0 az0 st0 rfl

/-! Claim theorems: the shared authorization token. -/

/-- C7: the token of an authorization created by newAuthorization is the
32-character alphanumeric string drawn fresh from the entropy stream at
its current position (which the call advances by 32), and every challenge
created under the authorization carries exactly that token. -/
theorem newAuthorization_fresh_shared_token (entropy : Nat → Nat)
    (az : Authorization) (st : HState) :
    (newAuthorization entropy az st).1.token =
      alphanumeric32 entropy st.rand ∧
    (newAuthorization entropy az st).1.token.length = 32 ∧
    (newAuthorization entropy az st).1.token.data.all Char.isAlphanum =
      true ∧
    (newAuthorization entropy az st).2.rand = st.rand + 32 ∧
    (newAuthorization entropy az st).1.challenges.all
      (fun ch => ch.token == (newAuthorization entropy az st).1.token) =
      true := by
  refine ⟨newAuthorization_token_eq entropy az st,
          by rw [newAuthorization_token_eq]; exact alphanumeric32_length _ _,
          by rw [newAuthorization_token_eq]; exact alphanumeric32_isAlphanum _ _,
          newAuthorization_rand entropy az st, ?_⟩
  rw [List.all_eq_true]
  intro ch hch
  rw [beq_iff_eq]
  exact newAuthorization_challenges_token entropy az st ch hch

/-! Lemmas on the authorization fan-out loop of NewOrder. -/

/-- The normalization the wildcard block applies to an identifier. -/
def normalizeIdentifier (id : Identifier) : Identifier :=
  if id.value.startsWith "*." then ⟨id.type, id.value.drop 2⟩ else id

theorem normalizeWildcard_identifier (az : Authorization) :
    (normalizeWildcard az).identifier =
      normalizeIdentifier az.identifier := by
  unfold normalizeWildcard normalizeIdentifier
  by_cases h : az.identifier.value.startsWith "*." <;> simp [h]

theorem createAuthorizations_length (entropy : Nat → Nat) (a : String)
    (x : Time) (ids : List Identifier) (st : HState) :
    (createAuthorizations entropy a x ids st).1.length = ids.length := by
  induction ids generalizing st with
  | nil => rfl
  | cons identifier rest ih => simp [createAuthorizations, ih]

theorem createAuthorizations_orders (entropy : Nat → Nat) (a : String)
    (x : Time) (ids : List Identifier) (st : HState) :
    (createAuthorizations entropy a x ids st).2.db.orders =
      st.db.orders := by
  induction ids generalizing st with
  | nil => rfl
  | cons identifier rest ih =>
    simp only [createAuthorizations]
    rw [ih, newAuthorization_orders]

theorem createAuthorizations_auths_length (entropy : Nat → Nat)
    (a : String) (x : Time) (ids : List Identifier) (st : HState) :
    (createAuthorizations entropy a x ids st).2.db.authorizations.length =
      st.db.authorizations.length + ids.length := by
  induction ids generalizing st with
  | nil => simp [createAuthorizations]
  | cons identifier rest ih =>
    simp only [createAuthorizations]
    rw [ih, newAuthorization_authorizations]
    simp only [List.length_append, List.length_cons, List.length_nil,
      List.length_cons]
    omega

theorem createAuthorizations_mem_mono (entropy : Nat → Nat) (a : String)
    (x : Time) (ids : List Identifier) (st : HState) (az : Authorization)
    (h : az ∈ st.db.authorizations) :
    az ∈ (createAuthorizations entropy a x ids st).2.db.authorizations := by
  induction ids generalizing st with
  | nil => exact h
  | cons identifier rest ih =>
    simp only [createAuthorizations]
    apply ih
    rw [newAuthorization_authorizations]
    exact List.mem_append_left _ h

theorem createAuthorizations_parallel (entropy : Nat → Nat) (a : String)
    (x : Time) (ids : List Identifier) (st : HState) :
    ∀ (i : Nat) (h1 : i < (createAuthorizations entropy a x ids st).1.length)
      (h2 : i < ids.length),
      ∃ az ∈ (createAuthorizations entropy a x ids st).2.db.authorizations,
        az.id = (createAuthorizations entropy a x ids st).1.get ⟨i, h1⟩ ∧
        az.accountID = a ∧ az.expiresAt = x ∧ az.status = StatusPending ∧
        az.identifier = normalizeIdentifier (ids.get ⟨i, h2⟩) := by
  induction ids generalizing st with
  | nil => intro i _ h2; cases h2
  | cons identifier rest ih =>
    intro i h1 h2
    cases i with
    | zero =>
      refine ⟨(newAuthorization entropy
          ⟨"", a, identifier, false, StatusPending, "", [], x⟩ st).1,
        ?_, rfl, ?_, ?_, ?_, ?_⟩
      · simp only [createAuthorizations]
        apply createAuthorizations_mem_mono
        rw [newAuthorization_authorizations]
        exact List.mem_append_right _ (List.mem_singleton_self _)
      · exact newAuthorization_accountID_eq _ _ _
      · exact newAuthorization_expiresAt_eq _ _ _
      · exact newAuthorization_status_eq _ _ _
      · rw [newAuthorization_identifier_eq, normalizeWildcard_identifier]
        rfl
    | succ j =>
      have h1' : j < (createAuthorizations entropy a x rest
          (newAuthorization entropy
            ⟨"", a, identifier, false, StatusPending, "", [], x⟩ st).2).1.length := by
        rw [createAuthorizations_length]
        rw [createAuthorizations_length] at h1
        exact Nat.lt_of_succ_lt_succ h1
      have h2' : j < rest.length := Nat.lt_of_succ_lt_succ h2
      obtain ⟨az, hmem, hid, hacc, hexp, hstat, hident⟩ :=
        ih (newAuthorization entropy
          ⟨"", a, identifier, false, StatusPending, "", [], x⟩ st).2 j h1' h2'
      exact ⟨az, hmem, hid, hacc, hexp, hstat, hident⟩

theorem createOrder_fst (o : Order) (st : HState) :
    (createOrder o st).1 = { o with id := freshID st.db } := rfl

theorem createOrder_orders (o : Order) (st : HState) :
    (createOrder o st).2.db.orders = st.db.orders ++ [(createOrder o st).1] :=
  rfl

theorem createOrder_authorizations (o : Order) (st : HState) :
    (createOrder o st).2.db.authorizations = st.db.authorizations := rfl

theorem NewOrder_ok_eq (parseIP : String → Bool) (entropy : Nat → Nat)
    (now : Time) (acc : Account) (prov : Provisioner)
    (nor : NewOrderRequest) (db : DB)
    (hvalid : NewOrderRequest.Validate parseIP nor = none) :
    NewOrder parseIP entropy now acc prov nor db =
      ⟨Except.ok (createOrder (newOrderRecord entropy now acc prov nor db)
          (newOrderAuths entropy acc now nor db).2).1,
        (createOrder (newOrderRecord entropy now acc prov nor db)
          (newOrderAuths entropy acc now nor db).2).2.db,
        (createOrder (newOrderRecord entropy now acc prov nor db)
          (newOrderAuths entropy acc now nor db).2).2.trace⟩ := by
  unfold NewOrder
  rw [hvalid]

/-! Claim theorems: the shape of a successfully created order. -/

/-- C5: on a valid identifier list, NewOrder renders a pending order with
expiresAt = now + 24h, persists it, creates exactly one authorization per
identifier (each pending, owned by the account, with the order expiry),
and stores the authorization ids in positions parallel to the
identifiers, with as many authorization ids as identifiers. -/
theorem newOrder_parallel_authorizations (parseIP : String → Bool)
    (entropy : Nat → Nat) (now : Time) (acc : Account) (prov : Provisioner)
    (nor : NewOrderRequest) (db : DB)
    (hvalid : NewOrderRequest.Validate parseIP nor = none) :
    ∃ o, (NewOrder parseIP entropy now acc prov nor db).result =
        Except.ok o ∧
      o.status = StatusPending ∧
      o.expiresAt = now + defaultOrderExpiry ∧
      o.identifiers = nor.identifiers ∧
      o.authorizationIDs.length = nor.identifiers.length ∧
      (NewOrder parseIP entropy now acc prov nor db).db.orders =
        db.orders ++ [o] ∧
      (NewOrder parseIP entropy now acc prov nor db).db.authorizations.length =
        db.authorizations.length + nor.identifiers.length ∧
      ∀ (i : Nat) (h1 : i < o.authorizationIDs.length)
        (h2 : i < nor.identifiers.length),
        ∃ az ∈ (NewOrder parseIP entropy now acc prov nor db).db.authorizations,
          az.id = o.authorizationIDs.get ⟨i, h1⟩ ∧
          az.accountID = acc.id ∧ az.expiresAt = o.expiresAt ∧
          az.status = StatusPending ∧
          az.identifier = normalizeIdentifier (nor.identifiers.get ⟨i, h2⟩) := by
  rw [NewOrder_ok_eq parseIP entropy now acc prov nor db hvalid]
  refine ⟨_, rfl, rfl, rfl, rfl, ?_, ?_, ?_, ?_⟩
  · exact createAuthorizations_length entropy acc.id
      (now + defaultOrderExpiry) nor.identifiers ⟨db, [], 0⟩
  · rw [createOrder_orders]
    unfold newOrderAuths
    rw [createAuthorizations_orders]
  · rw [createOrder_authorizations]
    unfold newOrderAuths
    rw [createAuthorizations_auths_length]
  · intro i h1 h2
    obtain ⟨az, hmem, hid, hacc, hexp, hstat, hident⟩ :=
      createAuthorizations_parallel entropy acc.id
        (now + defaultOrderExpiry) nor.identifiers ⟨db, [], 0⟩ i h1 h2
    exact ⟨az, hmem, hid, hacc, hexp, hstat, hident⟩

/-- A fixed parse-everything stand-in for net.ParseIP. -/
def pipT : String → Bool := fun _ => true

/-- A concrete account. -/
def acc0 : Account := ⟨"acct"⟩

/-- A concrete provisioner with a one-hour default duration. -/
def prov0 : Provisioner := ⟨"prov", 3600⟩

/-- A concrete valid one-identifier request with explicit validity
bounds. -/
def nor1 : NewOrderRequest := ⟨[⟨DNS, "example.com"⟩], 5, 7⟩

/-- Witness for C5 at a concrete valid request. -/
theorem newOrder_parallel_authorizations_witness :
    ∃ o, (NewOrder pipT ent0 1000 acc0 prov0 nor1 db0).result =
        Except.ok o ∧
      o.status = StatusPending ∧
      o.expiresAt = 1000 + defaultOrderExpiry ∧
      o.identifiers = nor1.identifiers ∧
      o.authorizationIDs.length = nor1.identifiers.length ∧
      (NewOrder pipT ent0 1000 acc0 prov0 nor1 db0).db.orders =
        db0.orders ++ [o] ∧
      (NewOrder pipT ent0 1000 acc0 prov0 nor1 db0).db.authorizations.length =
        db0.authorizations.length + nor1.identifiers.length ∧
      ∀ (i : Nat) (h1 : i < o.authorizationIDs.length)
        (h2 : i < nor1.identifiers.length),
        ∃ az ∈ (NewOrder pipT ent0 1000 acc0 prov0 nor1 db0).db.authorizations,
          az.id = o.authorizationIDs.get ⟨i, h1⟩ ∧
          az.accountID = acc0.id ∧ az.expiresAt = o.expiresAt ∧
          az.status = StatusPending ∧
          az.identifier = normalizeIdentifier (nor1.identifiers.get ⟨i, h2⟩) :=
  newOrder_parallel_authorizations pipT ent0 1000 acc0 prov0 nor1 db0 rfl

/-! Claim theorems: notBefore and notAfter defaults. -/

/-- A concrete wildcard request omitting notBefore and notAfter. -/
def nor2 : NewOrderRequest := ⟨[⟨DNS, "*.example.com"⟩], 0, 0⟩

/-- Counterexample to C6 as stated: with now = 10000 and a provisioner
default duration of 3600, the created order has notBefore = 9940
(= now - 60, the backdate) but notAfter = 13600 (= now + 3600), which is
not notBefore + 3600 = 13540 — notAfter is computed from the pre-backdate
notBefore, so the claimed notAfter = notBefore + duration fails. -/
theorem newOrder_notAfter_counterexample :
    (NewOrder pipT ent0 10000 acc0 prov0 nor2 db0).result.toOption.map
        (fun o => (o.notBefore, o.notAfter)) = some (9940, 13600) ∧
    ¬((13600 : Int) = 9940 + prov0.defaultTLSCertDuration) := by
  constructor
  · rfl
  · decide

/-- C6 amended: when the caller omits both notBefore and notAfter, the
created order has notBefore = now - 1 minute (the backdate) and
notAfter = now + provisionerDefaultDuration; equivalently, notAfter is
the backdate plus the default duration past notBefore, because notAfter
is computed from the pre-backdate notBefore. -/
theorem newOrder_defaults_backdate (parseIP : String → Bool)
    (entropy : Nat → Nat) (now : Time) (acc : Account) (prov : Provisioner)
    (nor : NewOrderRequest) (db : DB)
    (hvalid : NewOrderRequest.Validate parseIP nor = none)
    (hNB : nor.notBefore = 0) (hNA : nor.notAfter = 0) :
    ∃ o, (NewOrder parseIP entropy now acc prov nor db).result =
        Except.ok o ∧
      o.notBefore = now - defaultOrderBackdate ∧
      o.notAfter = now + prov.defaultTLSCertDuration ∧
      o.notAfter = o.notBefore + defaultOrderBackdate +
        prov.defaultTLSCertDuration := by
  rw [NewOrder_ok_eq parseIP entropy now acc prov nor db hvalid]
  refine ⟨_, rfl, ?_, ?_, ?_⟩
  · show newOrderNotBefore now nor = now - defaultOrderBackdate
    simp [newOrderNotBefore, hNB]
  · show newOrderNotAfter now prov nor = now + prov.defaultTLSCertDuration
    simp [newOrderNotAfter, hNB, hNA]
  · show newOrderNotAfter now prov nor =
      newOrderNotBefore now nor + defaultOrderBackdate +
        prov.defaultTLSCertDuration
    simp [newOrderNotAfter, newOrderNotBefore, hNB, hNA]

/-- Witness for the amended C6 at a concrete request omitting both
bounds. -/
theorem newOrder_defaults_backdate_witness :
    ∃ o, (NewOrder pipT ent0 10000 acc0 prov0 nor2 db0).result =
        Except.ok o ∧
      o.notBefore = 10000 - defaultOrderBackdate ∧
      o.notAfter = 10000 + prov0.defaultTLSCertDuration ∧
      o.notAfter = o.notBefore + defaultOrderBackdate +
        prov0.defaultTLSCertDuration :=
  newOrder_defaults_backdate pipT ent0 10000 acc0 prov0 nor2 db0
    rfl rfl rfl

/-! Lemmas on finalize-request validation. -/

theorem FinalizeValidate_decode_error (env : CryptoEnv)
    (fr : FinalizeRequest) (s : String)
    (hd : env.decodeBase64URL fr.csr = Except.error s) :
    FinalizeRequest.Validate env fr =
      Except.error ⟨ErrorMalformedType, "error base64url decoding csr"⟩ := by
  unfold FinalizeRequest.Validate
  simp only [hd]

theorem FinalizeValidate_parse_error (env : CryptoEnv)
    (fr : FinalizeRequest) (bs : List Nat) (s : String)
    (hd : env.decodeBase64URL fr.csr = Except.ok bs)
    (hp : env.parseCertificateRequest bs = Except.error s) :
    FinalizeRequest.Validate env fr =
      Except.error ⟨ErrorMalformedType, "unable to parse csr"⟩ := by
  unfold FinalizeRequest.Validate
  simp only [hd, hp]

theorem FinalizeValidate_sig_error (env : CryptoEnv)
    (fr : FinalizeRequest) (bs : List Nat) (csr : CertificateRequest)
    (s : String)
    (hd : env.decodeBase64URL fr.csr = Except.ok bs)
    (hp : env.parseCertificateRequest bs = Except.ok csr)
    (hs : env.checkSignature csr = Except.error s) :
    FinalizeRequest.Validate env fr =
      Except.error ⟨ErrorMalformedType, "csr failed signature check"⟩ := by
  unfold FinalizeRequest.Validate
  simp only [hd, hp, hs]

theorem FinalizeValidate_ok_eq (env : CryptoEnv)
    (fr : FinalizeRequest) (bs : List Nat) (csr : CertificateRequest)
    (hd : env.decodeBase64URL fr.csr = Except.ok bs)
    (hp : env.parseCertificateRequest bs = Except.ok csr)
    (hs : env.checkSignature csr = Except.ok ()) :
    FinalizeRequest.Validate env fr = Except.ok csr := by
  unfold FinalizeRequest.Validate
  simp only [hd, hp, hs]

theorem FinalizeValidate_error_malformed (env : CryptoEnv)
    (fr : FinalizeRequest) (e : AcmeError)
    (h : FinalizeRequest.Validate env fr = Except.error e) :
    e.type = ErrorMalformedType := by
  cases hd : env.decodeBase64URL fr.csr with
  | error s =>
    rw [FinalizeValidate_decode_error env fr s hd] at h
    cases h
    rfl
  | ok bs =>
    cases hp : env.parseCertificateRequest bs with
    | error s =>
      rw [FinalizeValidate_parse_error env fr bs s hd hp] at h
      cases h
      rfl
    | ok csr =>
      cases hs : env.checkSignature csr with
      | error s =>
        rw [FinalizeValidate_sig_error env fr bs csr s hd hp hs] at h
        cases h
        rfl
      | ok u =>
        cases u
        rw [FinalizeValidate_ok_eq env fr bs csr hd hp hs] at h
        cases h

/-! Claim theorems: ownership checks. -/

/-- C1: when the fetched order is owned by a different account or a
different provisioner than the authenticated context, GetOrder renders an
unauthorized error (never the order body) and leaves the store untouched,
and so does FinalizeOrder for any finalize request whose CSR validates. -/
theorem ownership_checks_unauthorized
    (updateStatus : DB → Order → Except String (Order × DB))
    (env : CryptoEnv)
    (finalize : DB → Order → CertificateRequest → Except String (Order × DB))
    (acc : Account) (prov : Provisioner) (ordID : String) (db : DB)
    (o : Order) (hGet : dbGetOrder db ordID = some o)
    (hMis : acc.id ≠ o.accountID ∨ prov.id ≠ o.provisionerID) :
    (∃ e, GetOrder updateStatus acc prov ordID db =
        ⟨Except.error e, db, [DBEvent.getOrder ordID]⟩ ∧
      e.type = ErrorUnauthorizedType) ∧
    ∀ (fr : FinalizeRequest) (csr : CertificateRequest),
      FinalizeRequest.Validate env fr = Except.ok csr →
      ∃ e, FinalizeOrder env finalize acc prov ordID fr db =
          ⟨Except.error e, db, [DBEvent.getOrder ordID]⟩ ∧
        e.type = ErrorUnauthorizedType := by
  constructor
  · unfold GetOrder
    simp only [hGet]
    by_cases h1 : acc.id = o.accountID
    · have h2 : prov.id ≠ o.provisionerID :=
        hMis.resolve_left (not_not_intro h1)
      rw [if_neg (not_not_intro h1), if_pos h2]
      exact ⟨_, rfl, rfl⟩
    · rw [if_pos h1]
      exact ⟨_, rfl, rfl⟩
  · intro fr csr hval
    unfold FinalizeOrder
    simp only [hval, hGet]
    by_cases h1 : acc.id = o.accountID
    · have h2 : prov.id ≠ o.provisionerID :=
        hMis.resolve_left (not_not_intro h1)
      rw [if_neg (not_not_intro h1), if_pos h2]
      exact ⟨_, rfl, rfl⟩
    · rw [if_pos h1]
      exact ⟨_, rfl, rfl⟩

/-- An order owned by a different account than acc0. -/
def ord0 : Order :=
  ⟨"ord1", "other", "prov", StatusPending, [], [], 0, 0, 0⟩

/-- A store holding just ord0. -/
def db1 : DB := ⟨[ord0], [], [], 1⟩

/-- A status recomputation stand-in that changes nothing. -/
def us0 : DB → Order → Except String (Order × DB) :=
  fun db o => Except.ok (o, db)

/-- A crypto environment where every check passes. -/
def env0 : CryptoEnv :=
  ⟨fun _ => Except.ok [], fun _ => Except.ok ⟨[]⟩, fun _ => Except.ok ()⟩

/-- An issuance stand-in that changes nothing. -/
def fin0 : DB → Order → CertificateRequest → Except String (Order × DB) :=
  fun db o _ => Except.ok (o, db)

/-- A concrete finalize request body. -/
def fr0 : FinalizeRequest := ⟨"csr"⟩

/-- Witness for C1: the authenticated account acct does not own ord1
(owned by other); both handlers answer unauthorized on the untouched
store. -/
theorem ownership_checks_unauthorized_witness :
    (∃ e, GetOrder us0 acc0 prov0 "ord1" db1 =
        ⟨Except.error e, db1, [DBEvent.getOrder "ord1"]⟩ ∧
      e.type = ErrorUnauthorizedType) ∧
    (∃ e, FinalizeOrder env0 fin0 acc0 prov0 "ord1" fr0 db1 =
        ⟨Except.error e, db1, [DBEvent.getOrder "ord1"]⟩ ∧
      e.type = ErrorUnauthorizedType) :=
  ⟨(ownership_checks_unauthorized us0 env0 fin0 acc0 prov0 "ord1" db1 ord0
      rfl (Or.inl (by decide))).1,
   (ownership_checks_unauthorized us0 env0 fin0 acc0 prov0 "ord1" db1 ord0
      rfl (Or.inl (by decide))).2 fr0 ⟨[]⟩ rfl⟩

/-- C10: in GetOrder the ownership checks run before the status
recomputation: on an ownership mismatch the store is unchanged, the only
database event is the order fetch, and no updateStatus event occurs for
any order. -/
theorem getOrder_no_update_on_mismatch
    (updateStatus : DB → Order → Except String (Order × DB))
    (acc : Account) (prov : Provisioner) (ordID : String) (db : DB)
    (o : Order) (hGet : dbGetOrder db ordID = some o)
    (hMis : acc.id ≠ o.accountID ∨ prov.id ≠ o.provisionerID) :
    (GetOrder updateStatus acc prov ordID db).db = db ∧
    (GetOrder updateStatus acc prov ordID db).trace =
      [DBEvent.getOrder ordID] ∧
    ∀ oid, DBEvent.updateStatus oid ∉
      (GetOrder updateStatus acc prov ordID db).trace := by
  unfold GetOrder
  simp only [hGet]
  by_cases h1 : acc.id = o.accountID
  · have h2 : prov.id ≠ o.provisionerID :=
      hMis.resolve_left (not_not_intro h1)
    rw [if_neg (not_not_intro h1), if_pos h2]
    refine ⟨rfl, rfl, fun oid hmem => ?_⟩
    simp at hmem
  · rw [if_pos h1]
    refine ⟨rfl, rfl, fun oid hmem => ?_⟩
    simp at hmem

/-- Witness for C10 at the concrete mismatched fetch of ord1. -/
theorem getOrder_no_update_on_mismatch_witness :
    (GetOrder us0 acc0 prov0 "ord1" db1).db = db1 ∧
    (GetOrder us0 acc0 prov0 "ord1" db1).trace =
      [DBEvent.getOrder "ord1"] ∧
    ∀ oid, DBEvent.updateStatus oid ∉
      (GetOrder us0 acc0 prov0 "ord1" db1).trace :=
  getOrder_no_update_on_mismatch us0 acc0 prov0 "ord1" db1 ord0 rfl
    (Or.inl (by decide))

/-! Claim theorems: finalize-time CSR validation. -/

/-- C8: a finalize request whose CSR fails base64url decoding, DER
parsing, or the self-signature check is answered with a malformed error,
FinalizeOrder performs no database event, and the store — hence every
stored order and its status — is exactly as before the call. -/
theorem finalizeOrder_invalid_csr (env : CryptoEnv)
    (finalize : DB → Order → CertificateRequest → Except String (Order × DB))
    (acc : Account) (prov : Provisioner) (ordID : String)
    (fr : FinalizeRequest) (db : DB)
    (h : (∃ s, env.decodeBase64URL fr.csr = Except.error s) ∨
         (∃ bs, env.decodeBase64URL fr.csr = Except.ok bs ∧
            ∃ s, env.parseCertificateRequest bs = Except.error s) ∨
         (∃ bs csr, env.decodeBase64URL fr.csr = Except.ok bs ∧
            env.parseCertificateRequest bs = Except.ok csr ∧
            ∃ s, env.checkSignature csr = Except.error s)) :
    ∃ e, FinalizeRequest.Validate env fr = Except.error e ∧
      e.type = ErrorMalformedType ∧
      FinalizeOrder env finalize acc prov ordID fr db =
        ⟨Except.error e, db, []⟩ ∧
      ∀ oid, dbGetOrder
          (FinalizeOrder env finalize acc prov ordID fr db).db oid =
        dbGetOrder db oid := by
  have hval : ∃ e, FinalizeRequest.Validate env fr = Except.error e := by
    cases h with
    | inl h =>
      obtain ⟨s, hd⟩ := h
      exact ⟨_, FinalizeValidate_decode_error env fr s hd⟩
    | inr h =>
      cases h with
      | inl h =>
        obtain ⟨bs, hd, s, hp⟩ := h
        exact ⟨_, FinalizeValidate_parse_error env fr bs s hd hp⟩
      | inr h =>
        obtain ⟨bs, csr, hd, hp, s, hs⟩ := h
        exact ⟨_, FinalizeValidate_sig_error env fr bs csr s hd hp hs⟩
  obtain ⟨e, he⟩ := hval
  have hefo : FinalizeOrder env finalize acc prov ordID fr db =
      ⟨Except.error e, db, []⟩ := by
    unfold FinalizeOrder
    rw [he]
  refine ⟨e, he, FinalizeValidate_error_malformed env fr e he, hefo, ?_⟩
  intro oid
  rw [hefo]

/-- A crypto environment whose base64url decoding always fails. -/
def envBadB64 : CryptoEnv :=
  ⟨fun _ => Except.error "bad base64", fun _ => Except.ok ⟨[]⟩,
   fun _ => Except.ok ()⟩

/-- Witness for C8: a finalize request whose CSR does not base64url
decode is rejected with the store untouched. -/
theorem finalizeOrder_invalid_csr_witness :
    ∃ e, FinalizeRequest.Validate envBadB64 fr0 = Except.error e ∧
      e.type = ErrorMalformedType ∧
      FinalizeOrder envBadB64 fin0 acc0 prov0 "ord1" fr0 db1 =
        ⟨Except.error e, db1, []⟩ ∧
      ∀ oid, dbGetOrder
          (FinalizeOrder envBadB64 fin0 acc0 prov0 "ord1" fr0 db1).db oid =
        dbGetOrder db1 oid :=
  finalizeOrder_invalid_csr envBadB64 fin0 acc0 prov0 "ord1" fr0 db1
    (Or.inl ⟨"bad base64", rfl⟩)

/-- C9: FinalizeOrder validates the payload CSR before fetching the order
and before any ownership check: whenever validation fails, the caller
gets that malformed error for every store, account and provisioner —
whether or not the named order exists or is owned by someone else — and
the event trace is empty, so the order record is neither read nor
written. -/
theorem finalizeOrder_validates_before_fetch (env : CryptoEnv)
    (finalize : DB → Order → CertificateRequest → Except String (Order × DB))
    (acc : Account) (prov : Provisioner) (ordID : String)
    (fr : FinalizeRequest) (db : DB) (e : AcmeError)
    (hval : FinalizeRequest.Validate env fr = Except.error e) :
    e.type = ErrorMalformedType ∧
    FinalizeOrder env finalize acc prov ordID fr db =
      ⟨Except.error e, db, []⟩ ∧
    (FinalizeOrder env finalize acc prov ordID fr db).trace = [] := by
  have hefo : FinalizeOrder env finalize acc prov ordID fr db =
      ⟨Except.error e, db, []⟩ := by
    unfold FinalizeOrder
    rw [hval]
  exact ⟨FinalizeValidate_error_malformed env fr e hval, hefo, by rw [hefo]⟩

/-- A crypto environment whose signature check always fails. -/
def envBadSig : CryptoEnv :=
  ⟨fun _ => Except.ok [], fun _ => Except.ok ⟨[]⟩,
   fun _ => Except.error "bad signature"⟩

/-- Witness for C9: a CSR failing its self-signature check is rejected
with an empty event trace even though the named order exists in the
store under a different account. -/
theorem finalizeOrder_validates_before_fetch_witness :
    (⟨ErrorMalformedType, "csr failed signature check"⟩ : AcmeError).type =
      ErrorMalformedType ∧
    FinalizeOrder envBadSig fin0 acc0 prov0 "ord1" fr0 db1 =
      ⟨Except.error ⟨ErrorMalformedType, "csr failed signature check"⟩,
        db1, []⟩ ∧
    (FinalizeOrder envBadSig fin0 acc0 prov0 "ord1" fr0 db1).trace = [] :=
  finalizeOrder_validates_before_fetch envBadSig fin0 acc0 prov0 "ord1"
    fr0 db1 ⟨ErrorMalformedType, "csr failed signature check"⟩ rfl

end AcmeOrder
